import Mathlib

/-!
Verification of the matrimony-matching core: scoring engine, profile
completion, interest state machine and messaging gate.

The definitions below are a shallow embedding of the Python sources:
`services/scoring.py`, `services/completion.py`, `services/permissions.py`,
`database/models.py`, `routes/interest.py`, `routes/match.py` and
`routes/profile.py`.  Python floats are modelled as exact rationals,
Python `round` (banker's rounding) as `pythonRound`, strings as `String`
with `str.strip`/`str.lower` modelled character-wise, SQL rows as lists,
and the SQLite database as an explicit `Store` value.
-/

/-- Python's built-in `round` on a rational: round half to even. -/
def pythonRound (q : ℚ) : ℤ :=
  let f : ℤ := q.floor
  let r : ℚ := q - (f : ℚ)
  if r < 1/2 then f
  else if 1/2 < r then f + 1
  else if f % 2 = 0 then f else f + 1

/-- `Rat.floor` agrees with the floor of the ordered field `ℚ`. -/
theorem ratFloor_eq_intFloor (q : ℚ) : q.floor = ⌊q⌋ := by
  rw [Rat.floor_def', Rat.floor_def]

theorem pythonRound_eq_floor_or_succ (q : ℚ) :
    pythonRound q = ⌊q⌋ ∨ pythonRound q = ⌊q⌋ + 1 := by
  unfold pythonRound
  rw [ratFloor_eq_intFloor]
  dsimp only
  split_ifs <;> simp

theorem floor_le_pythonRound (q : ℚ) : ⌊q⌋ ≤ pythonRound q := by
  rcases pythonRound_eq_floor_or_succ q with h | h <;> omega

theorem le_pythonRound (n : ℤ) (q : ℚ) (h : (n : ℚ) ≤ q) : n ≤ pythonRound q :=
  le_trans (Int.le_floor.mpr h) (floor_le_pythonRound q)

theorem pythonRound_le (n : ℤ) (q : ℚ) (h : q ≤ (n : ℚ)) : pythonRound q ≤ n := by
  have hfl : ⌊q⌋ ≤ n := by
    have := Int.floor_le_floor h
    simpa using this
  rcases pythonRound_eq_floor_or_succ q with hpr | hpr
  · omega
  · -- in the `⌊q⌋ + 1` branch the fractional part is ≥ 1/2, so `⌊q⌋ < q`
    by_contra hcon
    have hq : ⌊q⌋ = n := by omega
    have : q - (⌊q⌋ : ℚ) < 1/2 := by
      have hle : q ≤ (⌊q⌋ : ℚ) := by rw [hq]; exact_mod_cast h
      have h0 : (0:ℚ) ≤ (⌊q⌋:ℚ) - q + (⌊q⌋:ℚ) - ⌊q⌋ := by
        have := Int.floor_le q
        linarith
      linarith
    unfold pythonRound at hpr
    rw [ratFloor_eq_intFloor, if_pos this] at hpr
    omega

theorem pythonRound_eval_lo (n : ℤ) (q : ℚ) (h1 : (n : ℚ) ≤ q)
    (h2 : q < (n : ℚ) + 1/2) : pythonRound q = n := by
  have hfl : ⌊q⌋ = n := by
    apply Int.floor_eq_iff.mpr
    constructor
    · exact h1
    · linarith
  unfold pythonRound
  rw [ratFloor_eq_intFloor, hfl, if_pos]
  rw [hfl] at *
  linarith

theorem pythonRound_eval_hi (n : ℤ) (q : ℚ) (h1 : (n : ℚ) + 1/2 < q)
    (h2 : q < (n : ℚ) + 1) : pythonRound q = n + 1 := by
  have hfl : ⌊q⌋ = n := by
    apply Int.floor_eq_iff.mpr
    constructor
    · linarith
    · linarith
  unfold pythonRound
  rw [ratFloor_eq_intFloor, hfl]
  rw [if_neg, if_pos]
  · linarith
  · linarith

/-! ### Python string helpers

Strings coming out of profile fields are normalised with
`(s or "").strip().lower()`.  We model the character sequence directly. -/

/-- Python `str.strip()`: drop whitespace from both ends. -/
def pyStrip (cs : List Char) : List Char :=
  ((cs.dropWhile Char.isWhitespace).reverse.dropWhile Char.isWhitespace).reverse

/-- Python `str.lower()` (ASCII case folding as used by the app's data). -/
def pyLower (cs : List Char) : List Char :=
  cs.map Char.toLower

/-- `scoring._norm`: `(s or "").strip().lower()` on an optional string. -/
def pyNorm (s : Option String) : List Char :=
  pyLower (pyStrip (s.getD "").data)

/-! ### The profile record

The columns of the `profiles` table that the scoring and completion code
reads (`database/models.py`).  Text columns are `Option String`, integer
columns `Option ℤ` (`none` models SQL NULL / a missing key / an
unparsable value for `int(...)`). -/

structure Profile where
  full_name : Option String
  age : Option ℤ
  gender : Option String
  height_cm : Option ℤ
  marital_status : Option String
  location : Option String
  highest_education : Option String
  occupation : Option String
  income_range : Option String
  smoking : Option String
  drinking : Option String
  medical_conditions : Option String
  fitness_level : Option String
  pref_age_min : Option ℤ
  pref_age_max : Option ℤ
  pref_location : Option String
  pref_education_level : Option String
  image_filename : Option String
deriving DecidableEq

/-! ### Scoring engine (`services/scoring.py`) -/

/-- `_EDU_RANK.get(s, 0)`: the fixed 5-tier education scale. -/
def eduRank (s : List Char) : ℕ :=
  if s = "high school".data then 1
  else if s = "diploma".data then 2
  else if s = "bachelors".data then 3
  else if s = "masters".data then 4
  else if s = "phd".data then 5
  else 0

/-- `_clamp(value, lo, hi) = max(lo, min(hi, value))`. -/
def clamp (value lo hi : ℚ) : ℚ :=
  max lo (min hi value)

/-- `_education_score`: exact tier match best, nearby tiers partial. -/
def education_score (a b : Profile) : ℚ :=
  let ra := eduRank (pyNorm a.highest_education)
  let rb := eduRank (pyNorm b.highest_education)
  if ra = 0 ∨ rb = 0 then 1/2
  else if ra = rb then 1
  else clamp (1 - (((ra : ℤ) - (rb : ℤ)).natAbs : ℚ) * (1/4)) 0 1

def techGroup : List (List Char) :=
  ["software engineer".data, "developer".data, "data engineer".data, "data scientist".data]

def designGroup : List (List Char) :=
  ["designer".data, "ui designer".data, "ux designer".data]

def businessGroup : List (List Char) :=
  ["manager".data, "sales".data, "marketing".data]

/-- The nested `group` helper of `_job_score`. -/
def jobGroup (o : List Char) : String :=
  if techGroup.contains o then "tech"
  else if designGroup.contains o then "design"
  else if businessGroup.contains o then "business"
  else "other"

/-- `_job_score`: exact occupation match, else partial when same group. -/
def job_score (a b : Profile) : ℚ :=
  let oa := pyNorm a.occupation
  let ob := pyNorm b.occupation
  if oa = [] ∨ ob = [] then 1/2
  else if oa = ob then 1
  else if jobGroup oa = jobGroup ob then 7/10 else 3/10

/-- `_lifestyle_score`: smoking + drinking binary checks, averaged. -/
def lifestyle_score (a b : Profile) : ℚ :=
  let sa := pyNorm a.smoking
  let sb := pyNorm b.smoking
  let da := pyNorm a.drinking
  let dbv := pyNorm b.drinking
  let smoking_match : ℚ := if sa ≠ [] ∧ sb ≠ [] ∧ sa = sb then 1 else 1/2
  let drinking_match : ℚ := if da ≠ [] ∧ dbv ≠ [] ∧ da = dbv then 1 else 1/2
  (smoking_match + drinking_match) / 2

/-- `_health_score`: medical conditions + fitness level, averaged. -/
def health_score (a b : Profile) : ℚ :=
  let ma := pyNorm a.medical_conditions
  let mb := pyNorm b.medical_conditions
  let fa := pyNorm a.fitness_level
  let fb := pyNorm b.fitness_level
  let medical_match : ℚ := if ma ≠ [] ∧ mb ≠ [] ∧ ma = mb then 1 else 1/2
  let fitness_match : ℚ := if fa ≠ [] ∧ fb ≠ [] ∧ fa = fb then 1 else 1/2
  (medical_match + fitness_match) / 2

/-- The age check of `_preference_score`: `int(...)` on a missing value
raises and falls into the `except` branch worth 0.5. -/
def pref_age_check (viewer candidate : Profile) : ℚ :=
  match candidate.age, viewer.pref_age_min, viewer.pref_age_max with
  | some age, some amin, some amax => if amin ≤ age ∧ age ≤ amax then 1 else 0
  | _, _, _ => 1/2

/-- The location check of `_preference_score`. -/
def pref_location_check (viewer candidate : Profile) : ℚ :=
  let pref_loc := pyNorm viewer.pref_location
  let cand_loc := pyNorm candidate.location
  if pref_loc ≠ [] ∧ cand_loc ≠ [] then (if pref_loc = cand_loc then 1 else 0)
  else 1/2

/-- The minimum-education check of `_preference_score`. -/
def pref_education_check (viewer candidate : Profile) : ℚ :=
  let pref_edu := eduRank (pyNorm viewer.pref_education_level)
  let cand_edu := eduRank (pyNorm candidate.highest_education)
  if pref_edu ≠ 0 ∧ cand_edu ≠ 0 then (if cand_edu ≥ pref_edu then 1 else 0)
  else 1/2

/-- `_preference_score`: three checks accumulated then divided by
`max(parts, 1)` with `parts = 3`. -/
def preference_score (viewer candidate : Profile) : ℚ :=
  (pref_age_check viewer candidate + pref_location_check viewer candidate +
    pref_education_check viewer candidate) / ((max 3 1 : ℕ) : ℚ)

/-- The five-component breakdown dict returned by `calculate_match_score`. -/
structure Breakdown where
  education : ℤ
  job : ℤ
  lifestyle : ℤ
  health : ℤ
  preference : ℤ
deriving DecidableEq, Repr

/-- `calculate_match_score`: five weighted components, each rounded after
scaling by 20; the total is the clamped sum. -/
def calculate_match_score (user_a user_b : Profile) : ℤ × Breakdown :=
  let education := education_score user_a user_b
  let job := job_score user_a user_b
  let lifestyle := lifestyle_score user_a user_b
  let health := health_score user_a user_b
  let preference := preference_score user_a user_b
  let breakdown : Breakdown :=
    { education := pythonRound (education * 20)
      job := pythonRound (job * 20)
      lifestyle := pythonRound (lifestyle * 20)
      health := pythonRound (health * 20)
      preference := pythonRound (preference * 20) }
  let total := breakdown.education + breakdown.job + breakdown.lifestyle +
    breakdown.health + breakdown.preference
  (max 0 (min 100 total), breakdown)

/-! ### Completion calculator (`services/completion.py`) -/

/-- A Python value as seen by `_is_filled`: `None`, a string, or a number. -/
inductive PyVal where
  | vnone : PyVal
  | vstr : String → PyVal
  | vint : ℤ → PyVal
deriving DecidableEq

/-- `_is_filled`: `None` is empty, strings must be non-blank after
stripping, any number (zero included) counts as filled. -/
def is_filled : PyVal → Bool
  | .vnone => false
  | .vstr s => decide (pyStrip s.data ≠ [])
  | .vint _ => true

/-- View an optional text column as the Python value the dict holds. -/
def ovalStr : Option String → PyVal
  | none => .vnone
  | some s => .vstr s

/-- View an optional integer column as the Python value the dict holds. -/
def ovalInt : Option ℤ → PyVal
  | none => .vnone
  | some n => .vint n

/-- The fixed 18-field checklist of `calculate_profile_completion`,
in source order. -/
def completion_fields (p : Profile) : List PyVal :=
  [ovalStr p.full_name, ovalInt p.age, ovalStr p.gender, ovalInt p.height_cm,
   ovalStr p.marital_status, ovalStr p.location,
   ovalStr p.highest_education, ovalStr p.occupation, ovalStr p.income_range,
   ovalStr p.smoking, ovalStr p.drinking, ovalStr p.medical_conditions,
   ovalStr p.fitness_level,
   ovalInt p.pref_age_min, ovalInt p.pref_age_max, ovalStr p.pref_location,
   ovalStr p.pref_education_level,
   ovalStr p.image_filename]

/-- `calculate_profile_completion`: percentage of filled checklist
fields, rounded to the nearest integer. -/
def calculate_profile_completion (p : Profile) : ℤ :=
  let fields := completion_fields p
  let total : ℕ := fields.length
  let filled : ℕ := (fields.filter is_filled).length
  if total = 0 then 0
  else pythonRound (((filled : ℚ) / (total : ℚ)) * 100)

/-! ### Interest store (`database/models.py`)

A row of the `interests` table, and the visible state of the SQLite
database.  `created_at` is not read by any of the verified code and is
omitted.  The `UNIQUE(from_user_id, to_user_id)` constraint and the
AUTOINCREMENT primary key are captured by the store operations below and
by the `storeWF` invariant. -/

structure InterestRow where
  id : ℤ
  from_user_id : ℤ
  to_user_id : ℤ
  status : String
  responded_at : Option String
deriving DecidableEq, Repr

structure Store where
  users : List ℤ
  profiles : ℤ → Option Profile
  interests : List InterestRow
  next_interest_id : ℤ

/-- Does a row join users `a` and `b`, in either direction? -/
def matchesPair (r : InterestRow) (a b : ℤ) : Bool :=
  (r.from_user_id == a && r.to_user_id == b) ||
    (r.from_user_id == b && r.to_user_id == a)

/-- All rows of the unordered pair `{a, b}`. -/
def pair_rows (l : List InterestRow) (a b : ℤ) : List InterestRow :=
  l.filter (fun r => matchesPair r a b)

/-- `SELECT ... ORDER BY id ASC LIMIT 1` over a bag of rows. -/
def minById (l : List InterestRow) : Option InterestRow :=
  l.foldl
    (fun acc r =>
      match acc with
      | none => some r
      | some m => if r.id < m.id then some r else some m)
    none

/-- `models.get_interest_between_users`: the single row between two
users regardless of direction, smallest id first. -/
def get_interest_between_users (db : Store) (user_a_id user_b_id : ℤ) :
    Option InterestRow :=
  minById (pair_rows db.interests user_a_id user_b_id)

/-- `models.get_interest_status`: the outgoing row if present, else the
incoming row, with the derived direction string. -/
def get_interest_status (db : Store) (user_a_id user_b_id : ℤ) :
    Option (InterestRow × String) :=
  match db.interests.find?
      (fun r => r.from_user_id == user_a_id && r.to_user_id == user_b_id) with
  | some outgoing => some (outgoing, "outgoing")
  | none =>
    match db.interests.find?
        (fun r => r.from_user_id == user_b_id && r.to_user_id == user_a_id) with
    | some incoming => some (incoming, "incoming")
    | none => none

/-- `models.create_interest`: return the existing row's id for the same
ordered pair, otherwise insert a fresh `pending` row.  The
`UNIQUE(from_user_id, to_user_id)` constraint plus the
`IntegrityError → return existing` handler make this an atomic
insert-if-absent for the *ordered* pair; sequentially the handler branch
is unreachable. -/
def create_interest (db : Store) (from_user_id to_user_id : ℤ) : Store × ℤ :=
  match db.interests.find?
      (fun r => r.from_user_id == from_user_id && r.to_user_id == to_user_id) with
  | some existing => (db, existing.id)
  | none =>
    ({ db with
        interests := db.interests ++
          [⟨db.next_interest_id, from_user_id, to_user_id, "pending", none⟩]
        next_interest_id := db.next_interest_id + 1 },
      db.next_interest_id)

/-- `models.respond_to_interest`: raises `ValueError` on a bad action
(modelled as `.error`), otherwise updates status and response timestamp
of the row with the given id. -/
def respond_to_interest (db : Store) (interest_id : ℤ) (action now : String) :
    Except String Store :=
  if action = "accepted" ∨ action = "rejected" then
    .ok { db with
      interests := db.interests.map
        (fun r =>
          if r.id = interest_id then
            { r with status := action, responded_at := some now }
          else r) }
  else .error "Invalid interest response action"

/-! ### Interest routes (`routes/interest.py`) -/

/-- `routes.interest.send_interest`: the POST `/interest/send/<user_id>`
handler, acting on the store for a logged-in sender. -/
def send_interest (db : Store) (from_user_id to_user_id : ℤ) (now : String) :
    Store :=
  if from_user_id = to_user_id then db
  else if ¬ (db.users.contains to_user_id) then db
  else
    match get_interest_between_users db from_user_id to_user_id with
    | none => (create_interest db from_user_id to_user_id).1
    | some existing =>
      let status := pyNorm (some existing.status)
      if status = "pending".data ∧ existing.from_user_id = to_user_id ∧
          existing.to_user_id = from_user_id then
        match respond_to_interest db existing.id "accepted" now with
        | .ok db' => db'
        | .error _ => db
      else db

/-- `routes.interest.respond_interest`: the POST
`/interest/respond/<interest_id>/<action>` handler; returns the new
store and whether the respond succeeded. -/
def respond_interest (db : Store) (me interest_id : ℤ) (action now : String) :
    Store × Bool :=
  if ¬ (action = "accepted" ∨ action = "rejected") then (db, false)
  else
    match db.interests.find? (fun r => r.id == interest_id) with
    | none => (db, false)
    | some row =>
      if row.to_user_id ≠ me then (db, false)
      else if row.from_user_id = me then (db, false)
      else if row.status ≠ "pending" then (db, false)
      else
        match respond_to_interest db interest_id action now with
        | .ok db' => (db', true)
        | .error _ => (db, false)

/-! ### Messaging gate (`services/permissions.py`) and match views -/

structure MessagingGateResult where
  allowed : Bool
  score : ℤ
  interest_status : Option String
deriving DecidableEq, Repr

/-- `permissions.can_message`: both profiles must exist, the dynamic
score must reach 90, and the pair's interest status must be accepted. -/
def can_message (db : Store) (from_user_id to_user_id : ℤ) :
    MessagingGateResult :=
  match db.profiles from_user_id, db.profiles to_user_id with
  | some from_profile, some to_profile =>
    let score := (calculate_match_score from_profile to_profile).1
    let status :=
      (get_interest_status db from_user_id to_user_id).map (fun i => i.1.status)
    { allowed := decide (score ≥ 90) && decide (status = some "accepted")
      score := score
      interest_status := status }
  | _, _ => { allowed := false, score := 0, interest_status := none }

/-- The per-candidate fields computed by the dashboard and profile view. -/
structure SuggestionFlags where
  score : ℤ
  can_view : Bool
  interest_status : Option String
  messaging_unlocked : Bool
deriving DecidableEq, Repr

/-- `routes.match.dashboard`: the flags computed for one candidate. -/
def dashboard_entry (db : Store) (me_id : ℤ) (current_profile cand : Profile)
    (cand_user_id : ℤ) : SuggestionFlags :=
  let score := (calculate_match_score current_profile cand).1
  let interest_row := get_interest_between_users db me_id cand_user_id
  let interest_status := interest_row.map (fun r => r.status)
  { score := score
    can_view := decide (score ≥ 90)
    interest_status := interest_status
    messaging_unlocked :=
      decide (score ≥ 90) && decide (interest_status = some "accepted") }

/-- `routes.profile.view_profile`: the gating flags it computes for the
current user against the target profile's owner. -/
def view_profile_flags (db : Store) (me_id : ℤ) (current target : Profile)
    (target_user_id : ℤ) : SuggestionFlags :=
  let score := (calculate_match_score current target).1
  let interest_row := get_interest_between_users db me_id target_user_id
  let interest_status := interest_row.map (fun r => r.status)
  { score := score
    can_view := decide (score ≥ 90)
    interest_status := interest_status
    messaging_unlocked :=
      decide (score ≥ 90) && decide (interest_status = some "accepted") }

/-! ### Invariants of the interest store -/

/-- At most one interest row per unordered pair of users. -/
def at_most_one_per_pair (l : List InterestRow) : Prop :=
  l.Pairwise (fun r s => matchesPair s r.from_user_id r.to_user_id = false)

/-- Well-formed store: primary-key ids are distinct and below the
autoincrement counter. -/
def storeWF (db : Store) : Prop :=
  (db.interests.map (fun r => r.id)).Nodup ∧
    ∀ r ∈ db.interests, r.id < db.next_interest_id

instance : DecidablePred at_most_one_per_pair := fun l =>
  inferInstanceAs (Decidable (l.Pairwise _))

instance (db : Store) : Decidable (storeWF db) :=
  inferInstanceAs (Decidable (_ ∧ _))

/-! ### Bounds of the scoring components -/

theorem clamp01_nonneg (v : ℚ) : 0 ≤ clamp v 0 1 :=
  le_max_left 0 _

theorem clamp01_le_one (v : ℚ) : clamp v 0 1 ≤ 1 :=
  max_le (by norm_num) (min_le_left _ _)

theorem education_score_bounds (a b : Profile) :
    0 ≤ education_score a b ∧ education_score a b ≤ 1 := by
  unfold education_score
  dsimp only
  split_ifs
  · constructor <;> norm_num
  · constructor <;> norm_num
  · exact ⟨clamp01_nonneg _, clamp01_le_one _⟩

theorem job_score_bounds (a b : Profile) :
    3/10 ≤ job_score a b ∧ job_score a b ≤ 1 := by
  unfold job_score
  dsimp only
  split_ifs <;> constructor <;> norm_num

theorem lifestyle_score_bounds (a b : Profile) :
    1/2 ≤ lifestyle_score a b ∧ lifestyle_score a b ≤ 1 := by
  unfold lifestyle_score
  dsimp only
  split_ifs <;> constructor <;> norm_num

theorem health_score_bounds (a b : Profile) :
    1/2 ≤ health_score a b ∧ health_score a b ≤ 1 := by
  unfold health_score
  dsimp only
  split_ifs <;> constructor <;> norm_num

theorem pref_age_check_bounds (v c : Profile) :
    0 ≤ pref_age_check v c ∧ pref_age_check v c ≤ 1 := by
  unfold pref_age_check
  rcases c.age with _ | age <;> rcases v.pref_age_min with _ | amin <;>
    rcases v.pref_age_max with _ | amax
  case some.some.some =>
    dsimp only
    constructor <;> split_ifs <;> norm_num
  all_goals constructor <;> norm_num

theorem pref_location_check_bounds (v c : Profile) :
    0 ≤ pref_location_check v c ∧ pref_location_check v c ≤ 1 := by
  unfold pref_location_check
  dsimp only
  split_ifs <;> constructor <;> norm_num

theorem pref_education_check_bounds (v c : Profile) :
    0 ≤ pref_education_check v c ∧ pref_education_check v c ≤ 1 := by
  unfold pref_education_check
  dsimp only
  split_ifs <;> constructor <;> norm_num

theorem preference_score_bounds (v c : Profile) :
    0 ≤ preference_score v c ∧ preference_score v c ≤ 1 := by
  obtain ⟨h1, h2⟩ := pref_age_check_bounds v c
  obtain ⟨h3, h4⟩ := pref_location_check_bounds v c
  obtain ⟨h5, h6⟩ := pref_education_check_bounds v c
  unfold preference_score
  rw [show ((max 3 1 : ℕ) : ℚ) = 3 by norm_num]
  constructor
  · apply div_nonneg (by linarith) (by norm_num)
  · rw [div_le_one (by norm_num)]
    linarith

/-- Scaling a component by 20 and rounding keeps an integer lower bound. -/
theorem round_scale_ge (n : ℤ) (q : ℚ) (h : (n : ℚ) ≤ q * 20) :
    n ≤ pythonRound (q * 20) :=
  le_pythonRound n _ h

/-- Scaling a component by 20 and rounding keeps an integer upper bound. -/
theorem round_scale_le (n : ℤ) (q : ℚ) (h : q * 20 ≤ (n : ℚ)) :
    pythonRound (q * 20) ≤ n :=
  pythonRound_le n _ h

/-- The breakdown components of `calculate_match_score`, by definition. -/
theorem calculate_match_score_snd (a b : Profile) :
    (calculate_match_score a b).2 =
      { education := pythonRound (education_score a b * 20)
        job := pythonRound (job_score a b * 20)
        lifestyle := pythonRound (lifestyle_score a b * 20)
        health := pythonRound (health_score a b * 20)
        preference := pythonRound (preference_score a b * 20) } := rfl

/-- The total of `calculate_match_score`, by definition. -/
theorem calculate_match_score_fst (a b : Profile) :
    (calculate_match_score a b).1 =
      max 0 (min 100 ((calculate_match_score a b).2.education +
        (calculate_match_score a b).2.job +
        (calculate_match_score a b).2.lifestyle +
        (calculate_match_score a b).2.health +
        (calculate_match_score a b).2.preference)) := rfl

/-- Each breakdown component lies in `[0, 20]`. -/
theorem breakdown_bounds (a b : Profile) :
    (0 ≤ (calculate_match_score a b).2.education ∧
      (calculate_match_score a b).2.education ≤ 20) ∧
    (0 ≤ (calculate_match_score a b).2.job ∧
      (calculate_match_score a b).2.job ≤ 20) ∧
    (0 ≤ (calculate_match_score a b).2.lifestyle ∧
      (calculate_match_score a b).2.lifestyle ≤ 20) ∧
    (0 ≤ (calculate_match_score a b).2.health ∧
      (calculate_match_score a b).2.health ≤ 20) ∧
    (0 ≤ (calculate_match_score a b).2.preference ∧
      (calculate_match_score a b).2.preference ≤ 20) := by
  rw [calculate_match_score_snd]
  obtain ⟨e1, e2⟩ := education_score_bounds a b
  obtain ⟨j1, j2⟩ := job_score_bounds a b
  obtain ⟨l1, l2⟩ := lifestyle_score_bounds a b
  obtain ⟨h1, h2⟩ := health_score_bounds a b
  obtain ⟨p1, p2⟩ := preference_score_bounds a b
  refine ⟨⟨?_, ?_⟩, ⟨?_, ?_⟩, ⟨?_, ?_⟩, ⟨?_, ?_⟩, ⟨?_, ?_⟩⟩ <;>
    first
      | (apply round_scale_ge; push_cast; linarith)
      | (apply round_scale_le; push_cast; linarith)

/-- The clamp in `calculate_match_score` never fires: the total is the
plain sum of the five rounded components. -/
theorem total_eq_sum (a b : Profile) :
    (calculate_match_score a b).1 =
      (calculate_match_score a b).2.education +
      (calculate_match_score a b).2.job +
      (calculate_match_score a b).2.lifestyle +
      (calculate_match_score a b).2.health +
      (calculate_match_score a b).2.preference := by
  obtain ⟨⟨e1, e2⟩, ⟨j1, j2⟩, ⟨l1, l2⟩, ⟨h1, h2⟩, ⟨p1, p2⟩⟩ := breakdown_bounds a b
  rw [calculate_match_score_fst]
  rw [min_eq_right (by omega), max_eq_right (by omega)]

/-- The total never drops below 26: lifestyle and health round to at
least 10 each and job to at least 6. -/
theorem total_ge_26 (a b : Profile) : 26 ≤ (calculate_match_score a b).1 := by
  obtain ⟨⟨e1, _⟩, _, _, _, ⟨p1, _⟩⟩ := breakdown_bounds a b
  obtain ⟨j1, _⟩ := job_score_bounds a b
  obtain ⟨l1, _⟩ := lifestyle_score_bounds a b
  obtain ⟨h1, _⟩ := health_score_bounds a b
  have hj : (6 : ℤ) ≤ (calculate_match_score a b).2.job := by
    rw [calculate_match_score_snd]
    apply round_scale_ge
    push_cast
    linarith
  have hl : (10 : ℤ) ≤ (calculate_match_score a b).2.lifestyle := by
    rw [calculate_match_score_snd]
    apply round_scale_ge
    push_cast
    linarith
  have hh : (10 : ℤ) ≤ (calculate_match_score a b).2.health := by
    rw [calculate_match_score_snd]
    apply round_scale_ge
    push_cast
    linarith
  rw [total_eq_sum]
  omega

/-! ### Basic facts about interest rows and pair lookup -/

theorem matchesPair_true_iff (r : InterestRow) (a b : ℤ) :
    matchesPair r a b = true ↔
      (r.from_user_id = a ∧ r.to_user_id = b) ∨
        (r.from_user_id = b ∧ r.to_user_id = a) := by
  simp [matchesPair]

theorem matchesPair_comm (r : InterestRow) (a b : ℤ) :
    matchesPair r a b = matchesPair r b a := by
  unfold matchesPair
  exact Bool.or_comm _ _

theorem matchesPair_swap (r s : InterestRow) :
    matchesPair s r.from_user_id r.to_user_id = true ↔
      matchesPair r s.from_user_id s.to_user_id = true := by
  rw [matchesPair_true_iff, matchesPair_true_iff]
  omega

theorem matchesPair_trans {r s : InterestRow} {a b : ℤ}
    (hr : matchesPair r a b = true) (hs : matchesPair s a b = true) :
    matchesPair s r.from_user_id r.to_user_id = true := by
  rw [matchesPair_true_iff] at hr hs ⊢
  omega

theorem mem_pair_rows {l : List InterestRow} {a b : ℤ} {r : InterestRow} :
    r ∈ pair_rows l a b ↔ r ∈ l ∧ matchesPair r a b = true := by
  simp [pair_rows]

theorem pair_rows_append (l l' : List InterestRow) (a b : ℤ) :
    pair_rows (l ++ l') a b = pair_rows l a b ++ pair_rows l' a b := by
  simp [pair_rows]

theorem pair_rows_comm (l : List InterestRow) (a b : ℤ) :
    pair_rows l a b = pair_rows l b a := by
  unfold pair_rows
  apply List.filter_congr
  intro r _
  rw [matchesPair_comm]

/-- The symmetry of "these two rows do not join the same pair". -/
theorem notMatch_symm :
    Symmetric (fun r s : InterestRow =>
      matchesPair s r.from_user_id r.to_user_id = false) := by
  intro x y hxy
  by_contra h0
  rw [Bool.not_eq_false] at h0
  exact Bool.false_ne_true ((matchesPair_swap y x).mp h0 ▸ hxy ▸ rfl)

/-- Under the pair-uniqueness invariant, any two rows of the same
unordered pair are the same row. -/
theorem at_most_one_eq {l : List InterestRow} (h : at_most_one_per_pair l)
    {a b : ℤ} {r s : InterestRow} (hr : r ∈ l) (hs : s ∈ l)
    (hmr : matchesPair r a b = true) (hms : matchesPair s a b = true) :
    r = s := by
  by_contra hne
  have hfalse := (List.Pairwise.forall notMatch_symm h) hr hs hne
  have htrue := matchesPair_trans hmr hms
  rw [hfalse] at htrue
  exact Bool.false_ne_true htrue

theorem minById_mem : ∀ (l : List InterestRow) (acc : Option InterestRow)
    (r : InterestRow),
    l.foldl
      (fun acc r =>
        match acc with
        | none => some r
        | some m => if r.id < m.id then some r else some m)
      acc = some r →
    acc = some r ∨ r ∈ l := by
  intro l
  induction l with
  | nil => intro acc r h; exact Or.inl h
  | cons x t ih =>
    intro acc r h
    rcases ih _ r h with hstep | hmem
    · rcases acc with _ | m
      · simp only at hstep
        right
        rw [List.mem_cons]
        left
        exact (Option.some.injEq _ _).mp hstep |>.symm
      · simp only at hstep
        split at hstep
        · right
          rw [List.mem_cons]
          left
          exact (Option.some.injEq _ _).mp hstep |>.symm
        · exact Or.inl hstep
    · right
      exact List.mem_cons_of_mem _ hmem

theorem minById_mem' {l : List InterestRow} {r : InterestRow}
    (h : minById l = some r) : r ∈ l := by
  rcases minById_mem l none r h with h0 | h0
  · exact absurd h0 (by simp)
  · exact h0

theorem minById_ne_none : ∀ (l : List InterestRow) (m : InterestRow),
    l.foldl
      (fun acc r =>
        match acc with
        | none => some r
        | some m => if r.id < m.id then some r else some m)
      (some m) ≠ none := by
  intro l
  induction l with
  | nil => intro m h; exact Option.some_ne_none _ h
  | cons x t ih =>
    intro m h
    simp only [List.foldl_cons] at h
    split at h
    · exact ih _ h
    · exact ih _ h

theorem minById_eq_none {l : List InterestRow} :
    minById l = none ↔ l = [] := by
  constructor
  · intro h
    rcases l with _ | ⟨x, t⟩
    · rfl
    · exact absurd h (minById_ne_none t x)
  · intro h
    rw [h]
    rfl

theorem pair_rows_eq_nil_of_between_none {db : Store} {a b : ℤ}
    (h : get_interest_between_users db a b = none) :
    pair_rows db.interests a b = [] :=
  minById_eq_none.mp h

theorem get_interest_between_users_mem {db : Store} {a b : ℤ}
    {r : InterestRow} (h : get_interest_between_users db a b = some r) :
    r ∈ db.interests ∧ matchesPair r a b = true :=
  mem_pair_rows.mp (minById_mem' h)

/-! ### The row update of `respond_to_interest` -/

theorem upd_from (i : ℤ) (act now : String) (r : InterestRow) :
    ((if r.id = i then { r with status := act, responded_at := some now }
      else r) : InterestRow).from_user_id = r.from_user_id := by
  split_ifs <;> rfl

theorem upd_to (i : ℤ) (act now : String) (r : InterestRow) :
    ((if r.id = i then { r with status := act, responded_at := some now }
      else r) : InterestRow).to_user_id = r.to_user_id := by
  split_ifs <;> rfl

theorem upd_id (i : ℤ) (act now : String) (r : InterestRow) :
    ((if r.id = i then { r with status := act, responded_at := some now }
      else r) : InterestRow).id = r.id := by
  split_ifs <;> rfl

theorem upd_of_ne (i : ℤ) (act now : String) {r : InterestRow}
    (h : ¬r.id = i) :
    ((if r.id = i then { r with status := act, responded_at := some now }
      else r) : InterestRow) = r :=
  if_neg h

theorem matchesPair_upd (i : ℤ) (act now : String) (r : InterestRow)
    (a b : ℤ) :
    matchesPair
      (if r.id = i then { r with status := act, responded_at := some now }
        else r) a b = matchesPair r a b := by
  split_ifs <;> rfl

theorem respond_to_interest_ok (db : Store) (i : ℤ) (act now : String)
    (h : act = "accepted" ∨ act = "rejected") :
    respond_to_interest db i act now = .ok
      { db with
        interests := db.interests.map
          (fun r =>
            if r.id = i then { r with status := act, responded_at := some now }
            else r) } := by
  unfold respond_to_interest
  rw [if_pos h]

/-! ### Branch analyses of the two interest route handlers -/

/-- Everything `send_interest` can do: leave the store alone, insert a
fresh pending row for a pair with no existing row, or auto-accept an
existing reverse pending row. -/
theorem send_interest_cases (db : Store) (u v : ℤ) (now : String) :
    send_interest db u v now = db ∨
    (get_interest_between_users db u v = none ∧
      send_interest db u v now =
        { db with
            interests := db.interests ++
              [⟨db.next_interest_id, u, v, "pending", none⟩]
            next_interest_id := db.next_interest_id + 1 }) ∨
    (∃ ex, get_interest_between_users db u v = some ex ∧
      pyNorm (some ex.status) = "pending".data ∧
      ex.from_user_id = v ∧ ex.to_user_id = u ∧
      send_interest db u v now =
        { db with
            interests := db.interests.map
              (fun r =>
                if r.id = ex.id then
                  { r with status := "accepted", responded_at := some now }
                else r) }) := by
  unfold send_interest
  by_cases h1 : u = v
  · rw [if_pos h1]
    exact Or.inl rfl
  · rw [if_neg h1]
    by_cases h2 : db.users.contains v = true
    · rw [if_neg (not_not_intro h2)]
      rcases hbet : get_interest_between_users db u v with _ | ex
      · simp only [hbet]
        right; left
        refine ⟨trivial, ?_⟩
        have hfind : db.interests.find?
            (fun r => r.from_user_id == u && r.to_user_id == v) = none := by
          rw [List.find?_eq_none]
          intro x hx hpred
          have hmp : matchesPair x u v = true := by
            unfold matchesPair
            rw [hpred]
            rfl
          have hmem : x ∈ pair_rows db.interests u v :=
            mem_pair_rows.mpr ⟨hx, hmp⟩
          rw [pair_rows_eq_nil_of_between_none hbet] at hmem
          exact absurd hmem (List.not_mem_nil x)
        unfold create_interest
        rw [hfind]
      · simp only [hbet]
        dsimp only
        by_cases h3 : pyNorm (some ex.status) = "pending".data ∧
            ex.from_user_id = v ∧ ex.to_user_id = u
        · rw [if_pos h3]
          right; right
          refine ⟨ex, rfl, h3.1, h3.2.1, h3.2.2, ?_⟩
          rw [respond_to_interest_ok db ex.id "accepted" now (Or.inl rfl)]
        · rw [if_neg h3]
          exact Or.inl rfl
    · rw [if_pos h2]
      exact Or.inl rfl

/-- Everything `respond_interest` can do: fail leaving the store
unchanged, or update the addressed pending row. -/
theorem respond_interest_cases (db : Store) (me iid : ℤ)
    (action now : String) :
    respond_interest db me iid action now = (db, false) ∨
    (∃ row, db.interests.find? (fun r => r.id == iid) = some row ∧
      (action = "accepted" ∨ action = "rejected") ∧
      row.to_user_id = me ∧ ¬row.from_user_id = me ∧ row.status = "pending" ∧
      respond_interest db me iid action now =
        ({ db with
            interests := db.interests.map
              (fun r =>
                if r.id = iid then
                  { r with status := action, responded_at := some now }
                else r) }, true)) := by
  unfold respond_interest
  by_cases h1 : action = "accepted" ∨ action = "rejected"
  · rw [if_neg (not_not_intro h1)]
    rcases hfind : db.interests.find? (fun r => r.id == iid) with _ | row
    · simp only [hfind]
      exact Or.inl trivial
    · simp only [hfind]
      by_cases h2 : row.to_user_id = me
      · rw [if_neg (not_not_intro h2)]
        by_cases h3 : row.from_user_id = me
        · rw [if_pos h3]
          exact Or.inl rfl
        · rw [if_neg h3]
          by_cases h4 : row.status = "pending"
          · rw [if_neg (not_not_intro h4)]
            rw [respond_to_interest_ok db iid action now h1]
            exact Or.inr ⟨row, rfl, h1, h2, h3, h4, rfl⟩
          · rw [if_pos h4]
            exact Or.inl rfl
      · rw [if_pos h2]
        exact Or.inl rfl
  · rw [if_pos h1]
    exact Or.inl rfl

/-! ### Preservation of the store invariants -/

/-- Appending a row for a pair with no existing row keeps pair
uniqueness. -/
theorem at_most_one_append {l : List InterestRow} {u v : ℤ}
    (h : at_most_one_per_pair l) (hnone : pair_rows l u v = [])
    (nid : ℤ) :
    at_most_one_per_pair
      (l ++ [⟨nid, u, v, "pending", none⟩]) := by
  unfold at_most_one_per_pair at h ⊢
  rw [List.pairwise_append]
  refine ⟨h, List.pairwise_singleton _ _, ?_⟩
  intro r hr s hs
  rw [List.mem_singleton] at hs
  subst hs
  by_contra h0
  rw [Bool.not_eq_false, matchesPair_swap] at h0
  have hmem : r ∈ pair_rows l u v := mem_pair_rows.mpr ⟨hr, h0⟩
  rw [hnone] at hmem
  exact absurd hmem (List.not_mem_nil r)

/-- Updating a row's status keeps pair uniqueness. -/
theorem at_most_one_map_upd {l : List InterestRow}
    (h : at_most_one_per_pair l) (i : ℤ) (act now : String) :
    at_most_one_per_pair
      (l.map (fun r =>
        if r.id = i then { r with status := act, responded_at := some now }
        else r)) := by
  unfold at_most_one_per_pair at h ⊢
  apply List.Pairwise.map _ _ h
  intro a b hab
  rw [upd_from, upd_to, matchesPair_upd]
  exact hab

/-- `send_interest` keeps pair uniqueness. -/
theorem send_interest_at_most_one {db : Store}
    (h : at_most_one_per_pair db.interests) (u v : ℤ) (now : String) :
    at_most_one_per_pair (send_interest db u v now).interests := by
  rcases send_interest_cases db u v now with heq | ⟨hnone, heq⟩ |
      ⟨ex, _, _, _, _, heq⟩ <;> rw [heq]
  · exact h
  · exact at_most_one_append h (pair_rows_eq_nil_of_between_none hnone) _
  · exact at_most_one_map_upd h ex.id "accepted" now

/-- `respond_interest` keeps pair uniqueness. -/
theorem respond_interest_at_most_one {db : Store}
    (h : at_most_one_per_pair db.interests) (me iid : ℤ)
    (action now : String) :
    at_most_one_per_pair (respond_interest db me iid action now).1.interests := by
  rcases respond_interest_cases db me iid action now with heq |
      ⟨row, _, _, _, _, _, heq⟩ <;> rw [heq]
  · exact h
  · exact at_most_one_map_upd h iid action now

theorem storeWF_append {db : Store} (hwf : storeWF db) (u v : ℤ) :
    storeWF
      { db with
          interests := db.interests ++
            [⟨db.next_interest_id, u, v, "pending", none⟩]
          next_interest_id := db.next_interest_id + 1 } := by
  obtain ⟨hnd, hlt⟩ := hwf
  constructor
  · dsimp only
    rw [List.map_append, List.nodup_append]
    refine ⟨hnd, List.nodup_singleton _, ?_⟩
    intro x hx hx'
    rw [List.map_singleton, List.mem_singleton] at hx'
    subst hx'
    rw [List.mem_map] at hx
    obtain ⟨r, hr, hid⟩ := hx
    have hlt' := hlt r hr
    dsimp only at hid
    omega
  · intro r hr
    dsimp only at hr ⊢
    rw [List.mem_append] at hr
    rcases hr with hr | hr
    · have := hlt r hr
      omega
    · rw [List.mem_singleton] at hr
      subst hr
      dsimp only
      omega

theorem storeWF_map_upd {db : Store} (hwf : storeWF db) (i : ℤ)
    (act now : String) :
    storeWF
      { db with
          interests := db.interests.map
            (fun r =>
              if r.id = i then { r with status := act, responded_at := some now }
              else r) } := by
  obtain ⟨hnd, hlt⟩ := hwf
  have hids : (db.interests.map
      (fun r =>
        if r.id = i then { r with status := act, responded_at := some now }
        else r)).map (fun r => r.id) = db.interests.map (fun r => r.id) := by
    rw [List.map_map]
    apply List.map_congr_left
    intro r _
    exact upd_id i act now r
  constructor
  · rw [hids]
    exact hnd
  · intro r hr
    rw [List.mem_map] at hr
    obtain ⟨s, hs, hsr⟩ := hr
    subst hsr
    rw [upd_id]
    exact hlt s hs

theorem send_interest_storeWF {db : Store} (hwf : storeWF db)
    (u v : ℤ) (now : String) : storeWF (send_interest db u v now) := by
  rcases send_interest_cases db u v now with heq | ⟨_, heq⟩ |
      ⟨ex, _, _, _, _, heq⟩ <;> rw [heq]
  · exact hwf
  · exact storeWF_append hwf u v
  · exact storeWF_map_upd hwf ex.id "accepted" now

theorem respond_interest_storeWF {db : Store} (hwf : storeWF db)
    (me iid : ℤ) (action now : String) :
    storeWF (respond_interest db me iid action now).1 := by
  rcases respond_interest_cases db me iid action now with heq |
      ⟨row, _, _, _, _, _, heq⟩ <;> rw [heq]
  · exact hwf
  · exact storeWF_map_upd hwf iid action now

/-! ### Terminal statuses are never touched again -/

/-- In a well-formed store, rows sharing an id are the same row. -/
theorem eq_of_mem_of_id_eq {db : Store} (hwf : storeWF db)
    {r s : InterestRow} (hr : r ∈ db.interests) (hs : s ∈ db.interests)
    (hid : r.id = s.id) : r = s :=
  List.inj_on_of_nodup_map hwf.1 hr hs hid

theorem send_interest_keeps_terminal {db : Store} (hwf : storeWF db)
    {r : InterestRow} (hr : r ∈ db.interests)
    (hterm : r.status = "accepted" ∨ r.status = "rejected")
    (u v : ℤ) (now : String) :
    r ∈ (send_interest db u v now).interests := by
  rcases send_interest_cases db u v now with heq | ⟨_, heq⟩ |
      ⟨ex, hbet, hpend, _, _, heq⟩ <;> rw [heq]
  · exact hr
  · exact List.mem_append_left _ hr
  · have hexmem : ex ∈ db.interests := (get_interest_between_users_mem hbet).1
    have hne : ¬r.id = ex.id := by
      intro hid
      have hre : r = ex := eq_of_mem_of_id_eq hwf hr hexmem hid
      subst hre
      rcases hterm with hs | hs <;> rw [hs] at hpend <;> exact absurd hpend (by decide)
    have hmem := List.mem_map_of_mem
      (fun x : InterestRow =>
        if x.id = ex.id then { x with status := "accepted", responded_at := some now }
        else x) hr
    dsimp only at hmem ⊢
    rw [upd_of_ne ex.id "accepted" now hne] at hmem
    exact hmem

theorem respond_interest_keeps_terminal {db : Store} (hwf : storeWF db)
    {r : InterestRow} (hr : r ∈ db.interests)
    (hterm : r.status = "accepted" ∨ r.status = "rejected")
    (me iid : ℤ) (action now : String) :
    r ∈ (respond_interest db me iid action now).1.interests := by
  rcases respond_interest_cases db me iid action now with heq |
      ⟨row, hfind, _, _, _, hpending, heq⟩ <;> rw [heq]
  · exact hr
  · have hrowmem : row ∈ db.interests := List.mem_of_find?_eq_some hfind
    have hrowid : row.id = iid := by
      have := List.find?_some hfind
      exact beq_iff_eq.mp this
    have hne : ¬r.id = iid := by
      intro hid
      have hre : r = row := eq_of_mem_of_id_eq hwf hr hrowmem (by omega)
      subst hre
      rw [hpending] at hterm
      rcases hterm with hs | hs <;> exact absurd hs (by decide)
    have hmem := List.mem_map_of_mem
      (fun x : InterestRow =>
        if x.id = iid then { x with status := action, responded_at := some now }
        else x) hr
    dsimp only at hmem ⊢
    rw [upd_of_ne iid action now hne] at hmem
    exact hmem

/-! ### The interest state machine as a transition system -/

/-- One state transition of the interest store: any `send_interest` or
`respond_interest` route call by any user. -/
inductive InterestOp : Store → Store → Prop where
  | send (db : Store) (u v : ℤ) (now : String) :
      InterestOp db (send_interest db u v now)
  | respond (db : Store) (me iid : ℤ) (action now : String) :
      InterestOp db (respond_interest db me iid action now).1

theorem interestOp_storeWF {db db' : Store} (hwf : storeWF db)
    (hop : InterestOp db db') : storeWF db' := by
  cases hop with
  | send u v now => exact send_interest_storeWF hwf u v now
  | respond me iid action now =>
      exact respond_interest_storeWF hwf me iid action now

theorem interestOp_keeps_terminal {db db' : Store} (hwf : storeWF db)
    {r : InterestRow} (hr : r ∈ db.interests)
    (hterm : r.status = "accepted" ∨ r.status = "rejected")
    (hop : InterestOp db db') : r ∈ db'.interests := by
  cases hop with
  | send u v now => exact send_interest_keeps_terminal hwf hr hterm u v now
  | respond me iid action now =>
      exact respond_interest_keeps_terminal hwf hr hterm me iid action now

/-! ### Agreement of the two interest lookups -/

theorem get_interest_status_mem {db : Store} {a b : ℤ}
    {row : InterestRow} {dir : String}
    (h : get_interest_status db a b = some (row, dir)) :
    row ∈ db.interests ∧ matchesPair row a b = true := by
  unfold get_interest_status at h
  rcases h1 : db.interests.find?
      (fun r => r.from_user_id == a && r.to_user_id == b) with _ | o
  · rw [h1] at h
    rcases h2 : db.interests.find?
        (fun r => r.from_user_id == b && r.to_user_id == a) with _ | o'
    · rw [h2] at h
      exact absurd h (by simp)
    · rw [h2] at h
      simp only [Option.some.injEq, Prod.mk.injEq] at h
      obtain ⟨hrow, -⟩ := h
      subst hrow
      refine ⟨List.mem_of_find?_eq_some h2, ?_⟩
      have hp := List.find?_some h2
      unfold matchesPair
      rw [hp, Bool.or_true]
  · rw [h1] at h
    simp only [Option.some.injEq, Prod.mk.injEq] at h
    obtain ⟨hrow, -⟩ := h
    subst hrow
    refine ⟨List.mem_of_find?_eq_some h1, ?_⟩
    have hp := List.find?_some h1
    unfold matchesPair
    rw [hp, Bool.true_or]

theorem get_interest_status_isSome {db : Store} {a b : ℤ}
    {r : InterestRow} (hr : r ∈ db.interests)
    (hm : matchesPair r a b = true) :
    ∃ row dir, get_interest_status db a b = some (row, dir) ∧
      row ∈ db.interests ∧ matchesPair row a b = true := by
  unfold get_interest_status
  rcases h1 : db.interests.find?
      (fun r => r.from_user_id == a && r.to_user_id == b) with _ | o
  · have hnotab := List.find?_eq_none.mp h1 r hr
    have h2' : (db.interests.find?
        (fun s => s.from_user_id == b && s.to_user_id == a)).isSome := by
      rw [List.find?_isSome]
      refine ⟨r, hr, ?_⟩
      rw [matchesPair_true_iff] at hm
      rcases hm with ⟨hf, ht⟩ | ⟨hf, ht⟩
      · exact absurd (by simp [hf, ht]) hnotab
      · simp [hf, ht]
    rcases h2 : db.interests.find?
        (fun s => s.from_user_id == b && s.to_user_id == a) with _ | o'
    · rw [h2] at h2'
      exact absurd h2' (by simp)
    · rw [h1, h2]
      refine ⟨o', "incoming", rfl, List.mem_of_find?_eq_some h2, ?_⟩
      have hp := List.find?_some h2
      unfold matchesPair
      rw [hp, Bool.or_true]
  · rw [h1]
    refine ⟨o, "outgoing", rfl, List.mem_of_find?_eq_some h1, ?_⟩
    have hp := List.find?_some h1
    unfold matchesPair
    rw [hp, Bool.true_or]

/-- With at most one row per unordered pair, the min-id unordered lookup
and the outgoing-first lookup report the same status. -/
theorem interest_status_agree {db : Store}
    (huniq : at_most_one_per_pair db.interests) (a b : ℤ) :
    (get_interest_between_users db a b).map (fun r => r.status) =
      (get_interest_status db a b).map (fun p => p.1.status) := by
  rcases hbet : get_interest_between_users db a b with _ | r
  · rcases hst : get_interest_status db a b with _ | p
    · rfl
    · rcases p with ⟨row, dir⟩
      obtain ⟨hmem, hm⟩ := get_interest_status_mem hst
      have hpr : row ∈ pair_rows db.interests a b := mem_pair_rows.mpr ⟨hmem, hm⟩
      rw [pair_rows_eq_nil_of_between_none hbet] at hpr
      exact absurd hpr (List.not_mem_nil row)
  · obtain ⟨hrmem, hrm⟩ := get_interest_between_users_mem hbet
    obtain ⟨row, dir, hst, hmem, hm⟩ := get_interest_status_isSome hrmem hrm
    rw [hst]
    have : row = r := at_most_one_eq huniq hmem hrmem hm hrm
    subst this
    rfl

/-! ### Counting filled profile fields -/

/-- The number of filled fields among the fixed 18-field checklist,
written out as the sum of the eighteen indicators. -/
def count_filled (p : Profile) : ℕ :=
  (if is_filled (ovalStr p.full_name) then 1 else 0) +
  (if is_filled (ovalInt p.age) then 1 else 0) +
  (if is_filled (ovalStr p.gender) then 1 else 0) +
  (if is_filled (ovalInt p.height_cm) then 1 else 0) +
  (if is_filled (ovalStr p.marital_status) then 1 else 0) +
  (if is_filled (ovalStr p.location) then 1 else 0) +
  (if is_filled (ovalStr p.highest_education) then 1 else 0) +
  (if is_filled (ovalStr p.occupation) then 1 else 0) +
  (if is_filled (ovalStr p.income_range) then 1 else 0) +
  (if is_filled (ovalStr p.smoking) then 1 else 0) +
  (if is_filled (ovalStr p.drinking) then 1 else 0) +
  (if is_filled (ovalStr p.medical_conditions) then 1 else 0) +
  (if is_filled (ovalStr p.fitness_level) then 1 else 0) +
  (if is_filled (ovalInt p.pref_age_min) then 1 else 0) +
  (if is_filled (ovalInt p.pref_age_max) then 1 else 0) +
  (if is_filled (ovalStr p.pref_location) then 1 else 0) +
  (if is_filled (ovalStr p.pref_education_level) then 1 else 0) +
  (if is_filled (ovalStr p.image_filename) then 1 else 0)

theorem count_filled_eq (p : Profile) :
    ((completion_fields p).filter is_filled).length = count_filled p := by
  rw [← List.countP_eq_length_filter]
  simp only [completion_fields, List.countP_cons, List.countP_nil]
  unfold count_filled
  ring

theorem count_filled_le (p : Profile) : count_filled p ≤ 18 := by
  have h := List.length_filter_le is_filled (completion_fields p)
  rw [count_filled_eq] at h
  exact h

theorem calculate_profile_completion_eq (p : Profile) :
    calculate_profile_completion p =
      pythonRound (((count_filled p : ℚ) / 18) * 100) := by
  unfold calculate_profile_completion
  dsimp only
  rw [if_neg (by rw [show (completion_fields p).length = 18 from rfl]; omega)]
  rw [count_filled_eq, show (completion_fields p).length = 18 from rfl]
  norm_num

/-! ### Exact computations of the route handlers -/

theorem find?_ordered_eq_none_of_pair_rows_nil {l : List InterestRow}
    {a b : ℤ} (h : pair_rows l a b = []) :
    l.find? (fun r => r.from_user_id == a && r.to_user_id == b) = none := by
  rw [List.find?_eq_none]
  intro x hx hpred
  have hmp : matchesPair x a b = true := by
    unfold matchesPair
    rw [hpred]
    rfl
  have hmem : x ∈ pair_rows l a b := mem_pair_rows.mpr ⟨hx, hmp⟩
  rw [h] at hmem
  exact absurd hmem (List.not_mem_nil x)

/-- A first request for a pair with no existing row inserts a fresh
pending row. -/
theorem send_interest_creates {db : Store} {u v : ℤ} (now : String)
    (huv : ¬u = v) (hv : db.users.contains v = true)
    (hnone : pair_rows db.interests u v = []) :
    send_interest db u v now =
      { db with
          interests := db.interests ++
            [⟨db.next_interest_id, u, v, "pending", none⟩]
          next_interest_id := db.next_interest_id + 1 } := by
  unfold send_interest
  rw [if_neg huv, if_neg (not_not_intro hv)]
  have h1 : get_interest_between_users db u v = none := by
    unfold get_interest_between_users
    rw [hnone]
    rfl
  rw [h1]
  unfold create_interest
  rw [find?_ordered_eq_none_of_pair_rows_nil hnone]

/-- A request against a reverse pending row auto-accepts it. -/
theorem send_interest_accepts {db : Store} {u v : ℤ} (now : String)
    {ex : InterestRow} (huv : ¬u = v) (hv : db.users.contains v = true)
    (hbet : get_interest_between_users db u v = some ex)
    (hpend : pyNorm (some ex.status) = "pending".data)
    (hfrom : ex.from_user_id = v) (hto : ex.to_user_id = u) :
    send_interest db u v now =
      { db with
          interests := db.interests.map
            (fun r =>
              if r.id = ex.id then
                { r with status := "accepted", responded_at := some now }
              else r) } := by
  unfold send_interest
  rw [if_neg huv, if_neg (not_not_intro hv), hbet]
  dsimp only
  rw [if_pos ⟨hpend, hfrom, hto⟩,
    respond_to_interest_ok db ex.id "accepted" now (Or.inl rfl)]

/-- A request against an existing row that is not reverse-pending is a
no-op. -/
theorem send_interest_noop {db : Store} {u v : ℤ} (now : String)
    {ex : InterestRow} (hbet : get_interest_between_users db u v = some ex)
    (hnot : ¬(pyNorm (some ex.status) = "pending".data ∧
      ex.from_user_id = v ∧ ex.to_user_id = u)) :
    send_interest db u v now = db := by
  unfold send_interest
  by_cases h1 : u = v
  · rw [if_pos h1]
  · rw [if_neg h1]
    by_cases h2 : db.users.contains v = true
    · rw [if_neg (not_not_intro h2), hbet]
      dsimp only
      rw [if_neg hnot]
    · rw [if_pos h2]

/-- A respond whose guards all pass updates the addressed row. -/
theorem respond_interest_success {db : Store} {me iid : ℤ}
    {action now : String} {row : InterestRow}
    (h1 : action = "accepted" ∨ action = "rejected")
    (hfind : db.interests.find? (fun r => r.id == iid) = some row)
    (h2 : row.to_user_id = me) (h3 : ¬row.from_user_id = me)
    (h4 : row.status = "pending") :
    respond_interest db me iid action now =
      ({ db with
          interests := db.interests.map
            (fun r =>
              if r.id = iid then
                { r with status := action, responded_at := some now }
              else r) }, true) := by
  unfold respond_interest
  rw [if_neg (not_not_intro h1), hfind]
  dsimp only
  rw [if_neg (not_not_intro h2), if_neg h3, if_neg (not_not_intro h4),
    respond_to_interest_ok db iid action now h1]

/-! ### Exact computations of the messaging gate -/

theorem can_message_none {db : Store} {f t : ℤ}
    (h : db.profiles f = none ∨ db.profiles t = none) :
    can_message db f t = ⟨false, 0, none⟩ := by
  unfold can_message
  rcases hf : db.profiles f with _ | fp
  · rfl
  · rcases h with h | h
    · rw [hf] at h
      exact absurd h (by simp)
    · rw [h]

theorem can_message_some {db : Store} {f t : ℤ} {fp tp : Profile}
    (hf : db.profiles f = some fp) (ht : db.profiles t = some tp) :
    can_message db f t =
      { allowed := decide ((calculate_match_score fp tp).1 ≥ 90) &&
          decide ((get_interest_status db f t).map (fun i => i.1.status) =
            some "accepted")
        score := (calculate_match_score fp tp).1
        interest_status :=
          (get_interest_status db f t).map (fun i => i.1.status) } := by
  unfold can_message
  rw [hf, ht]

/-! ### Concrete objects reused by witnesses -/

/-- A profile with every field absent. -/
def emptyProfile : Profile :=
  { full_name := none, age := none, gender := none, height_cm := none,
    marital_status := none, location := none, highest_education := none,
    occupation := none, income_range := none, smoking := none, drinking := none,
    medical_conditions := none, fitness_level := none, pref_age_min := none,
    pref_age_max := none, pref_location := none, pref_education_level := none,
    image_filename := none }

/-- A profile that matches itself perfectly on every scored component. -/
def fullProfile : Profile :=
  { full_name := some "A", age := some 30, gender := some "F",
    height_cm := some 170, marital_status := some "single",
    location := some "pune", highest_education := some "masters",
    occupation := some "developer", income_range := some "5-10",
    smoking := some "no", drinking := some "no",
    medical_conditions := some "none", fitness_level := some "fit",
    pref_age_min := some 18, pref_age_max := some 80,
    pref_location := some "pune", pref_education_level := some "masters",
    image_filename := none }

theorem fullProfile_score :
    calculate_match_score fullProfile fullProfile = (100, ⟨20, 20, 20, 20, 20⟩) := by
  unfold calculate_match_score
  rw [show education_score fullProfile fullProfile = 1 from by
        unfold education_score
        norm_num [show eduRank (pyNorm fullProfile.highest_education) = 4 from rfl],
      show job_score fullProfile fullProfile = 1 from by
        unfold job_score
        dsimp only
        rw [if_neg (by decide), if_pos rfl],
      show lifestyle_score fullProfile fullProfile = 1 from by
        unfold lifestyle_score
        dsimp only
        rw [if_pos (⟨by decide, by decide, rfl⟩ : _ ∧ _ ∧ _),
            if_pos (⟨by decide, by decide, rfl⟩ : _ ∧ _ ∧ _)]
        norm_num,
      show health_score fullProfile fullProfile = 1 from by
        unfold health_score
        dsimp only
        rw [if_pos (⟨by decide, by decide, rfl⟩ : _ ∧ _ ∧ _),
            if_pos (⟨by decide, by decide, rfl⟩ : _ ∧ _ ∧ _)]
        norm_num,
      show preference_score fullProfile fullProfile = 1 from by
        unfold preference_score
        rw [show pref_age_check fullProfile fullProfile = 1 from rfl,
            show pref_location_check fullProfile fullProfile = 1 from rfl,
            show pref_education_check fullProfile fullProfile = 1 from rfl]
        norm_num]
  dsimp only
  rw [show pythonRound ((1 : ℚ) * 20) = 20 from by
        rw [show (1 : ℚ) * 20 = ((20 : ℤ) : ℚ) by norm_num]
        exact pythonRound_eval_lo 20 20 (by norm_num) (by norm_num)]
  norm_num

/-! ## The claims -/

/-- C2.  For every pair of profile records, `calculate_match_score`
returns a total in [0, 100] and five components each in [0, 20], and the
total equals the sum of the five independently rounded components (the
final clamp to [0, 100] never changes the sum). -/
theorem C2_score_shape (a b : Profile) :
    (calculate_match_score a b).1 =
      (calculate_match_score a b).2.education +
      (calculate_match_score a b).2.job +
      (calculate_match_score a b).2.lifestyle +
      (calculate_match_score a b).2.health +
      (calculate_match_score a b).2.preference ∧
    (0 ≤ (calculate_match_score a b).2.education ∧
      (calculate_match_score a b).2.education ≤ 20) ∧
    (0 ≤ (calculate_match_score a b).2.job ∧
      (calculate_match_score a b).2.job ≤ 20) ∧
    (0 ≤ (calculate_match_score a b).2.lifestyle ∧
      (calculate_match_score a b).2.lifestyle ≤ 20) ∧
    (0 ≤ (calculate_match_score a b).2.health ∧
      (calculate_match_score a b).2.health ≤ 20) ∧
    (0 ≤ (calculate_match_score a b).2.preference ∧
      (calculate_match_score a b).2.preference ≤ 20) ∧
    0 ≤ (calculate_match_score a b).1 ∧ (calculate_match_score a b).1 ≤ 100 := by
  have hb := breakdown_bounds a b
  have hs := total_eq_sum a b
  obtain ⟨⟨e1, e2⟩, ⟨j1, j2⟩, ⟨l1, l2⟩, ⟨h1, h2⟩, ⟨p1, p2⟩⟩ := hb
  exact ⟨hs, ⟨e1, e2⟩, ⟨j1, j2⟩, ⟨l1, l2⟩, ⟨h1, h2⟩, ⟨p1, p2⟩, by omega, by omega⟩

/-- C10.  The total of `calculate_match_score` is always at least 26
(lifestyle and health round to at least 10 each and job to at least 6),
so a score of 0 reported by the messaging gate can only come from a
missing profile. -/
theorem C10_score_floor (a b : Profile) (db : Store) (f t : ℤ) :
    26 ≤ (calculate_match_score a b).1 ∧
    ((can_message db f t).score = 0 →
      db.profiles f = none ∨ db.profiles t = none) := by
  refine ⟨total_ge_26 a b, ?_⟩
  intro hzero
  rcases hf : db.profiles f with _ | fp
  · exact Or.inl rfl
  · rcases ht : db.profiles t with _ | tp
    · exact Or.inr rfl
    · rw [can_message_some hf ht] at hzero
      dsimp only at hzero
      have := total_ge_26 fp tp
      omega

/-- C10 witness: a store with no stored profiles reports score 0, and
the implication places the blame on a missing profile. -/
theorem C10_score_floor_witness :
    26 ≤ (calculate_match_score fullProfile emptyProfile).1 ∧
      ((⟨[], fun _ => none, [], 1⟩ : Store).profiles 1 = none ∨
        (⟨[], fun _ => none, [], 1⟩ : Store).profiles 2 = none) :=
  ⟨(C10_score_floor fullProfile emptyProfile ⟨[], fun _ => none, [], 1⟩ 1 2).1,
    (C10_score_floor fullProfile emptyProfile ⟨[], fun _ => none, [], 1⟩ 1 2).2 rfl⟩

/-- C8.  Two profiles whose compared fields are all unknown or empty
score 10 on every component and 50 in total. -/
theorem C8_all_unknown_default (a b : Profile)
    (h1 : eduRank (pyNorm a.highest_education) = 0)
    (h2 : eduRank (pyNorm b.highest_education) = 0)
    (h3 : pyNorm a.occupation = [])
    (h4 : pyNorm b.occupation = [])
    (h5 : pyNorm a.smoking = [])
    (h6 : pyNorm b.smoking = [])
    (h7 : pyNorm a.drinking = [])
    (h8 : pyNorm b.drinking = [])
    (h9 : pyNorm a.medical_conditions = [])
    (h10 : pyNorm b.medical_conditions = [])
    (h11 : pyNorm a.fitness_level = [])
    (h12 : pyNorm b.fitness_level = [])
    (h13 : b.age = none)
    (h14 : pyNorm a.pref_location = [])
    (h15 : pyNorm b.location = [])
    (h16 : eduRank (pyNorm a.pref_education_level) = 0) :
    calculate_match_score a b = (50, ⟨10, 10, 10, 10, 10⟩) := by
  unfold calculate_match_score
  rw [show education_score a b = 1/2 from by
        unfold education_score
        rw [h1]
        norm_num,
      show job_score a b = 1/2 from by
        unfold job_score
        rw [h3]
        norm_num,
      show lifestyle_score a b = 1/2 from by
        unfold lifestyle_score
        dsimp only
        rw [if_neg (by rw [h5]; simp), if_neg (by rw [h7]; simp)]
        norm_num,
      show health_score a b = 1/2 from by
        unfold health_score
        dsimp only
        rw [if_neg (by rw [h9]; simp), if_neg (by rw [h11]; simp)]
        norm_num,
      show preference_score a b = 1/2 from by
        unfold preference_score
        rw [show pref_age_check a b = 1/2 from by
              unfold pref_age_check
              rw [h13],
            show pref_location_check a b = 1/2 from by
              unfold pref_location_check
              rw [if_neg (by rw [h14]; simp)],
            show pref_education_check a b = 1/2 from by
              unfold pref_education_check
              rw [if_neg (by rw [h16]; simp)]]
        norm_num]
  dsimp only
  rw [show pythonRound ((1/2 : ℚ) * 20) = 10 from by
        rw [show (1/2 : ℚ) * 20 = ((10 : ℤ) : ℚ) by norm_num]
        exact pythonRound_eval_lo 10 10 (by norm_num) (by norm_num)]
  norm_num

/-- C8 witness: the all-empty profile pair evaluates to 50 with four
components of 10. -/
theorem C8_all_unknown_default_witness :
    calculate_match_score emptyProfile emptyProfile = (50, ⟨10, 10, 10, 10, 10⟩) :=
  C8_all_unknown_default emptyProfile emptyProfile rfl rfl rfl rfl rfl rfl rfl rfl
    rfl rfl rfl rfl rfl rfl rfl rfl

/-- C9.  `calculate_profile_completion` is the rounded percentage of
filled fields over the fixed 18-field checklist; a field is filled iff
it is non-null, text is non-empty after stripping, and a numeric zero
counts as filled; 18, 0 and 9 filled fields give 100, 0 and 50. -/
theorem C9_completion (p : Profile) :
    calculate_profile_completion p =
      pythonRound (((count_filled p : ℚ) / 18) * 100) ∧
    is_filled PyVal.vnone = false ∧
    (∀ s : String, is_filled (PyVal.vstr s) = decide (pyStrip s.data ≠ [])) ∧
    (∀ n : ℤ, is_filled (PyVal.vint n) = true) ∧
    (count_filled p = 18 → calculate_profile_completion p = 100) ∧
    (count_filled p = 0 → calculate_profile_completion p = 0) ∧
    (count_filled p = 9 → calculate_profile_completion p = 50) := by
  refine ⟨calculate_profile_completion_eq p, rfl, fun _ => rfl, fun _ => rfl,
    ?_, ?_, ?_⟩
  · intro h
    rw [calculate_profile_completion_eq p, h,
      show (((18 : ℕ) : ℚ) / 18) * 100 = ((100 : ℤ) : ℚ) by norm_num]
    exact pythonRound_eval_lo 100 100 (by norm_num) (by norm_num)
  · intro h
    rw [calculate_profile_completion_eq p, h,
      show (((0 : ℕ) : ℚ) / 18) * 100 = ((0 : ℤ) : ℚ) by norm_num]
    exact pythonRound_eval_lo 0 0 (by norm_num) (by norm_num)
  · intro h
    rw [calculate_profile_completion_eq p, h,
      show (((9 : ℕ) : ℚ) / 18) * 100 = ((50 : ℤ) : ℚ) by norm_num]
    exact pythonRound_eval_lo 50 50 (by norm_num) (by norm_num)

/-- A profile with exactly the first nine checklist fields filled. -/
def nineProfile : Profile :=
  { full_name := some "A", age := some 30, gender := some "F",
    height_cm := some 170, marital_status := some "single",
    location := some "pune", highest_education := some "masters",
    occupation := some "developer", income_range := some "5-10",
    smoking := none, drinking := none, medical_conditions := none,
    fitness_level := none, pref_age_min := none, pref_age_max := none,
    pref_location := none, pref_education_level := none,
    image_filename := none }

/-- C9 witness: the all-filled, all-empty and nine-filled profiles
evaluate to 100, 0 and 50. -/
theorem C9_completion_witness :
    count_filled nineProfile = 9 ∧
      calculate_profile_completion nineProfile = 50 ∧
      count_filled emptyProfile = 0 ∧
      calculate_profile_completion emptyProfile = 0 :=
  ⟨by decide, (C9_completion nineProfile).2.2.2.2.2.2 (by decide),
    by decide, (C9_completion emptyProfile).2.2.2.2.2.1 (by decide)⟩

/-- C1.  The messaging gate allows a pair exactly when the recomputed
score reaches 90 and the pair's interest status is accepted (in either
direction); a missing profile on either side yields
`allowed = false, score = 0, interest_status = none`. -/
theorem C1_messaging_gate (db : Store) (f t : ℤ) :
    ((can_message db f t).allowed = true ↔
      (can_message db f t).score ≥ 90 ∧
        (can_message db f t).interest_status = some "accepted") ∧
    ((db.profiles f = none ∨ db.profiles t = none) →
      can_message db f t = ⟨false, 0, none⟩) ∧
    (∀ fp tp, db.profiles f = some fp → db.profiles t = some tp →
      (can_message db f t).score = (calculate_match_score fp tp).1 ∧
      (can_message db f t).interest_status =
        (get_interest_status db f t).map (fun p => p.1.status)) ∧
    (at_most_one_per_pair db.interests →
      ((can_message db f t).allowed = true ↔
        (can_message db f t).score ≥ 90 ∧
          ∃ r ∈ db.interests, matchesPair r f t = true ∧
            r.status = "accepted")) := by
  rcases hf : db.profiles f with _ | fp
  · have hres : can_message db f t = ⟨false, 0, none⟩ :=
      can_message_none (Or.inl hf)
    rw [hres]
    refine ⟨by simp, fun _ => rfl, ?_, ?_⟩
    · intro fp tp hfp _
      exact absurd hfp (by simp)
    · intro _
      refine ⟨fun h => absurd h (by simp), fun h => ?_⟩
      have h1 := h.1
      dsimp only at h1
      omega
  · rcases ht : db.profiles t with _ | tp
    · have hres : can_message db f t = ⟨false, 0, none⟩ :=
        can_message_none (Or.inr ht)
      rw [hres]
      refine ⟨by simp, fun _ => rfl, ?_, ?_⟩
      · intro fp' tp' _ htp
        exact absurd htp (by simp)
      · intro _
        refine ⟨fun h => absurd h (by simp), fun h => ?_⟩
        have h1 := h.1
        dsimp only at h1
        omega
    · have hres := can_message_some hf ht
      rw [hres]
      dsimp only
      refine ⟨by simp [Bool.and_eq_true, decide_eq_true_iff], ?_, ?_, ?_⟩
      · intro h
        rcases h with h | h
        · exact absurd h (by simp)
        · exact absurd h (by simp)
      · intro fp' tp' hfp' htp'
        rw [Option.some.injEq] at hfp' htp'
        subst hfp'
        subst htp'
        exact ⟨rfl, rfl⟩
      · intro huniq
        rw [Bool.and_eq_true, decide_eq_true_iff, decide_eq_true_iff]
        constructor
        · rintro ⟨h90, hacc⟩
          refine ⟨h90, ?_⟩
          rw [Option.map_eq_some'] at hacc
          obtain ⟨⟨row, dir⟩, hst, hstat⟩ := hacc
          obtain ⟨hmem, hm⟩ := get_interest_status_mem hst
          exact ⟨row, hmem, hm, hstat⟩
        · rintro ⟨h90, r, hrmem, hrm, hracc⟩
          refine ⟨h90, ?_⟩
          obtain ⟨row, dir, hst, hmem, hm⟩ :=
            get_interest_status_isSome hrmem hrm
          rw [hst]
          have : row = r := at_most_one_eq huniq hmem hrmem hm hrm
          subst this
          rw [Option.map_some']
          rw [hracc]

/-- C1 witness: a store with both profiles, score 100 and an accepted
interest allows messaging; removing the profiles denies with score 0. -/
theorem C1_messaging_gate_witness :
    (can_message
        ⟨[1, 2],
          fun n => if n = 1 then some fullProfile
            else if n = 2 then some fullProfile else none,
          [⟨1, 1, 2, "accepted", some "t"⟩], 2⟩ 1 2).score =
      (calculate_match_score fullProfile fullProfile).1 ∧
    can_message (⟨[], fun _ => none, [], 1⟩ : Store) 1 2 = ⟨false, 0, none⟩ :=
  ⟨((C1_messaging_gate
      ⟨[1, 2],
        fun n => if n = 1 then some fullProfile
          else if n = 2 then some fullProfile else none,
        [⟨1, 1, 2, "accepted", some "t"⟩], 2⟩ 1 2).2.2.1 fullProfile fullProfile
      rfl rfl).1,
    (C1_messaging_gate (⟨[], fun _ => none, [], 1⟩ : Store) 1 2).2.1 (Or.inl rfl)⟩

/-- C5.  `respond_interest` succeeds exactly when the caller is the
record's `to_user`, not its `from_user`, the record is pending and the
action is valid; any failure leaves the interest store unchanged; on
success only the addressed row changes, getting the action as status
and a response timestamp. -/
theorem C5_respond_guard (db : Store) (me iid : ℤ) (action now : String) :
    ((respond_interest db me iid action now).2 = false →
      (respond_interest db me iid action now).1 = db) ∧
    ((respond_interest db me iid action now).2 = true ↔
      (action = "accepted" ∨ action = "rejected") ∧
      ∃ row, db.interests.find? (fun r => r.id == iid) = some row ∧
        row.to_user_id = me ∧ ¬row.from_user_id = me ∧
        row.status = "pending") ∧
    ((respond_interest db me iid action now).2 = true →
      (respond_interest db me iid action now).1.interests =
        db.interests.map
          (fun r =>
            if r.id = iid then
              { r with status := action, responded_at := some now }
            else r)) := by
  rcases respond_interest_cases db me iid action now with heq |
      ⟨row, hfind, hact, hto, hfrom, hpend, heq⟩
  · rw [heq]
    refine ⟨fun _ => rfl, ?_, ?_⟩
    · constructor
      · intro h
        exact absurd h (by simp)
      · rintro ⟨h1, row, hfind, h2, h3, h4⟩
        rw [respond_interest_success h1 hfind h2 h3 h4] at heq
        exact absurd (congrArg Prod.snd heq) (by simp)
    · intro h
      exact absurd h (by simp)
  · rw [heq]
    refine ⟨?_, ?_, fun _ => rfl⟩
    · intro h
      exact absurd h (by simp)
    · constructor
      · intro _
        exact ⟨hact, row, hfind, hto, hfrom, hpend⟩
      · intro _
        rfl

/-- C5 witness: the recipient accepting a pending interest succeeds and
stamps the row; the sender's attempt fails and changes nothing. -/
theorem C5_respond_guard_witness :
    ((respond_interest
        ⟨[1, 2], fun _ => none, [⟨1, 1, 2, "pending", none⟩], 2⟩
        2 1 "accepted" "now").2 = true ∧
      (respond_interest
        ⟨[1, 2], fun _ => none, [⟨1, 1, 2, "pending", none⟩], 2⟩
        2 1 "accepted" "now").1.interests =
          [⟨1, 1, 2, "accepted", some "now"⟩]) ∧
    ((respond_interest
        ⟨[1, 2], fun _ => none, [⟨1, 1, 2, "pending", none⟩], 2⟩
        1 1 "accepted" "now").2 = false →
      (respond_interest
        ⟨[1, 2], fun _ => none, [⟨1, 1, 2, "pending", none⟩], 2⟩
        1 1 "accepted" "now").1 =
        ⟨[1, 2], fun _ => none, [⟨1, 1, 2, "pending", none⟩], 2⟩) := by
  refine ⟨⟨?_, ?_⟩, ?_⟩
  · exact (C5_respond_guard
      ⟨[1, 2], fun _ => none, [⟨1, 1, 2, "pending", none⟩], 2⟩
      2 1 "accepted" "now").2.1.mpr
      ⟨Or.inl rfl, ⟨1, 1, 2, "pending", none⟩, by decide, rfl, by decide, rfl⟩
  · rw [(C5_respond_guard
      ⟨[1, 2], fun _ => none, [⟨1, 1, 2, "pending", none⟩], 2⟩
      2 1 "accepted" "now").2.2 ((C5_respond_guard
        ⟨[1, 2], fun _ => none, [⟨1, 1, 2, "pending", none⟩], 2⟩
        2 1 "accepted" "now").2.1.mpr
      ⟨Or.inl rfl, ⟨1, 1, 2, "pending", none⟩, by decide, rfl, by decide, rfl⟩)]
    decide
  · exact (C5_respond_guard
      ⟨[1, 2], fun _ => none, [⟨1, 1, 2, "pending", none⟩], 2⟩
      1 1 "accepted" "now").1

/-- C7.  The interest state machine's only transitions are
pending → accepted and pending → rejected, and both are terminal: a row
whose status is accepted or rejected survives every later sequence of
`send_interest` / `respond_interest` operations unchanged, and stays
the unique row with its id. -/
theorem C7_terminal_states (db db' : Store) (r : InterestRow)
    (hwf : storeWF db)
    (hsteps : Relation.ReflTransGen InterestOp db db')
    (hr : r ∈ db.interests)
    (hterm : r.status = "accepted" ∨ r.status = "rejected") :
    r ∈ db'.interests ∧ ∀ s ∈ db'.interests, s.id = r.id → s = r := by
  have key : storeWF db' ∧ r ∈ db'.interests := by
    induction hsteps with
    | refl => exact ⟨hwf, hr⟩
    | tail _ hbc ih =>
        exact ⟨interestOp_storeWF ih.1 hbc,
          interestOp_keeps_terminal ih.1 ih.2 hterm hbc⟩
  exact ⟨key.2, fun s hs hid => eq_of_mem_of_id_eq key.1 hs key.2 hid⟩

/-- C7 witness: an accepted row survives a later send and a later
respond attempt against it. -/
theorem C7_terminal_states_witness :
    (⟨1, 1, 2, "accepted", some "t"⟩ : InterestRow) ∈
      (respond_interest
        (send_interest
          ⟨[1, 2, 3], fun _ => none, [⟨1, 1, 2, "accepted", some "t"⟩], 2⟩
          1 3 "u")
        2 1 "rejected" "v").1.interests := by
  refine (C7_terminal_states
    ⟨[1, 2, 3], fun _ => none, [⟨1, 1, 2, "accepted", some "t"⟩], 2⟩
    _ ⟨1, 1, 2, "accepted", some "t"⟩ ⟨by decide, by decide⟩
    ?_ (by decide) (Or.inl rfl)).1
  exact Relation.ReflTransGen.tail
    (Relation.ReflTransGen.single
      (InterestOp.send ⟨[1, 2, 3], fun _ => none,
        [⟨1, 1, 2, "accepted", some "t"⟩], 2⟩ 1 3 "u"))
    (InterestOp.respond _ 2 1 "rejected" "v")

theorem map_upd_id {l : List InterestRow} {i : ℤ} {act now : String}
    (h : ∀ r ∈ l, ¬r.id = i) :
    l.map (fun r =>
      if r.id = i then { r with status := act, responded_at := some now }
      else r) = l := by
  induction l with
  | nil => rfl
  | cons x t ih =>
      rw [List.map_cons, upd_of_ne _ _ _ (h x (List.mem_cons_self x t)),
        ih (fun r hr => h r (List.mem_cons_of_mem _ hr))]

/-- C4.  `Request(A→B)` on a pair with no record creates one pending
row; `Request(B→A)` while it is pending turns that same row into
`accepted` without creating a second row; afterwards requests from
either side leave the store untouched. -/
theorem C4_mutual_requests (db : Store) (A B : ℤ) (n1 n2 n3 n4 : String)
    (hAB : ¬A = B) (hA : db.users.contains A = true)
    (hB : db.users.contains B = true)
    (hfresh : ∀ r ∈ db.interests, r.id < db.next_interest_id)
    (hnone : pair_rows db.interests A B = []) :
    (send_interest db A B n1).interests =
      db.interests ++ [⟨db.next_interest_id, A, B, "pending", none⟩] ∧
    (send_interest (send_interest db A B n1) B A n2).interests =
      db.interests ++ [⟨db.next_interest_id, A, B, "accepted", some n2⟩] ∧
    pair_rows (send_interest (send_interest db A B n1) B A n2).interests A B =
      [⟨db.next_interest_id, A, B, "accepted", some n2⟩] ∧
    send_interest (send_interest (send_interest db A B n1) B A n2) A B n3 =
      send_interest (send_interest db A B n1) B A n2 ∧
    send_interest (send_interest (send_interest db A B n1) B A n2) B A n4 =
      send_interest (send_interest db A B n1) B A n2 := by
  have hmAB : matchesPair ⟨db.next_interest_id, A, B, "pending", none⟩ B A = true :=
    (matchesPair_true_iff _ _ _).mpr (Or.inr ⟨rfl, rfl⟩)
  have hs1 := @send_interest_creates db A B n1 hAB hB hnone
  rw [hs1]
  have hpr1 : pair_rows
      (db.interests ++ [⟨db.next_interest_id, A, B, "pending", none⟩]) B A =
      [⟨db.next_interest_id, A, B, "pending", none⟩] := by
    rw [pair_rows_append, pair_rows_comm db.interests B A, hnone]
    simp [pair_rows, List.filter_cons, hmAB]
  have hbet1 : get_interest_between_users
      { db with
          interests := db.interests ++
            [⟨db.next_interest_id, A, B, "pending", none⟩]
          next_interest_id := db.next_interest_id + 1 } B A =
      some ⟨db.next_interest_id, A, B, "pending", none⟩ := by
    unfold get_interest_between_users
    dsimp only
    rw [hpr1]
    rfl
  have hs2 := @send_interest_accepts
    { db with
        interests := db.interests ++
          [⟨db.next_interest_id, A, B, "pending", none⟩]
        next_interest_id := db.next_interest_id + 1 }
    B A n2 ⟨db.next_interest_id, A, B, "pending", none⟩
    (fun h => hAB h.symm) hA hbet1
    (show pyNorm (some "pending") = "pending".data by decide) rfl rfl
  rw [hs2]
  dsimp only
  have hmap : (db.interests ++
      ([⟨db.next_interest_id, A, B, "pending", none⟩] : List InterestRow)).map
        (fun r : InterestRow =>
          if r.id = db.next_interest_id then
            { r with status := "accepted", responded_at := some n2 }
          else r) =
      db.interests ++ [⟨db.next_interest_id, A, B, "accepted", some n2⟩] := by
    rw [List.map_append,
      map_upd_id (fun r hr => by have := hfresh r hr; omega),
      List.map_singleton, if_pos rfl]
  rw [hmap]
  have hmAB2 : matchesPair
      ⟨db.next_interest_id, A, B, "accepted", some n2⟩ A B = true :=
    (matchesPair_true_iff _ _ _).mpr (Or.inl ⟨rfl, rfl⟩)
  have hpr2 : pair_rows
      (db.interests ++ [⟨db.next_interest_id, A, B, "accepted", some n2⟩]) A B =
      [⟨db.next_interest_id, A, B, "accepted", some n2⟩] := by
    rw [pair_rows_append, hnone]
    simp [pair_rows, List.filter_cons, hmAB2]
  have hbet2 : get_interest_between_users
      { db with
          interests := db.interests ++
            [⟨db.next_interest_id, A, B, "accepted", some n2⟩]
          next_interest_id := db.next_interest_id + 1 } A B =
      some ⟨db.next_interest_id, A, B, "accepted", some n2⟩ := by
    unfold get_interest_between_users
    dsimp only
    rw [hpr2]
    rfl
  have hbet2' : get_interest_between_users
      { db with
          interests := db.interests ++
            [⟨db.next_interest_id, A, B, "accepted", some n2⟩]
          next_interest_id := db.next_interest_id + 1 } B A =
      some ⟨db.next_interest_id, A, B, "accepted", some n2⟩ := by
    unfold get_interest_between_users
    rw [pair_rows_comm]
    dsimp only
    rw [hpr2]
    rfl
  refine ⟨rfl, rfl, hpr2, ?_, ?_⟩
  · exact send_interest_noop n3 hbet2
      (fun h => absurd h.1
        (show ¬pyNorm (some "accepted") = "pending".data by decide))
  · exact send_interest_noop n4 hbet2'
      (fun h => absurd h.1
        (show ¬pyNorm (some "accepted") = "pending".data by decide))

/-- C4 witness: the two-user scenario run from an empty store. -/
theorem C4_mutual_requests_witness :
    (send_interest (send_interest
        ⟨[1, 2], fun _ => none, [], 1⟩ 1 2 "a") 2 1 "b").interests =
      [⟨1, 1, 2, "accepted", some "b"⟩] ∧
    send_interest (send_interest (send_interest
        ⟨[1, 2], fun _ => none, [], 1⟩ 1 2 "a") 2 1 "b") 1 2 "c" =
      send_interest (send_interest
        ⟨[1, 2], fun _ => none, [], 1⟩ 1 2 "a") 2 1 "b" := by
  have h := C4_mutual_requests ⟨[1, 2], fun _ => none, [], 1⟩ 1 2 "a" "b" "c" "d"
    (by decide) (by decide) (by decide) (by decide) (by decide)
  exact ⟨h.2.1, h.2.2.2.1⟩

/-- C3 counterexample: the storage layer's uniqueness constraint is on
the *ordered* pair only.  `create_interest(1→2)` followed by
`create_interest(2→1)` inserts two rows for the unordered pair {1, 2}:
no storage-level constraint on the unordered pair exists. -/
theorem C3_storage_counterexample :
    ¬ at_most_one_per_pair
        ((create_interest (create_interest
          ⟨[1, 2], fun _ => none, [], 1⟩ 1 2).1 2 1).1.interests) ∧
    ((create_interest (create_interest
          ⟨[1, 2], fun _ => none, [], 1⟩ 1 2).1 2 1).1.interests) =
      [⟨1, 1, 2, "pending", none⟩, ⟨2, 2, 1, "pending", none⟩] := by
  constructor
  · decide
  · decide

/-- C3 amended: the storage layer enforces insert-if-absent only per
*ordered* pair (`create_interest` returns the existing row's id and
changes nothing when the same direction already exists); the at most one
record per unordered pair invariant is preserved by the route-level
operations under sequential execution. -/
theorem C3_ordered_unique_amended :
    (∀ (db : Store) (u v : ℤ) (r : InterestRow),
        db.interests.find?
          (fun s => s.from_user_id == u && s.to_user_id == v) = some r →
        create_interest db u v = (db, r.id)) ∧
    (∀ (db : Store) (u v : ℤ) (now : String),
        at_most_one_per_pair db.interests →
        at_most_one_per_pair (send_interest db u v now).interests) ∧
    (∀ (db : Store) (me iid : ℤ) (action now : String),
        at_most_one_per_pair db.interests →
        at_most_one_per_pair
          (respond_interest db me iid action now).1.interests) := by
  refine ⟨?_, ?_, ?_⟩
  · intro db u v r hfind
    unfold create_interest
    rw [hfind]
  · intro db u v now h
    exact send_interest_at_most_one h u v now
  · intro db me iid action now h
    exact respond_interest_at_most_one h me iid action now

/-- C3 amended witness: a duplicate ordered create returns the existing
id without inserting, and a route-level send keeps pair uniqueness. -/
theorem C3_ordered_unique_amended_witness :
    create_interest
        ⟨[1, 2], fun _ => none, [⟨5, 1, 2, "pending", none⟩], 6⟩ 1 2 =
      (⟨[1, 2], fun _ => none, [⟨5, 1, 2, "pending", none⟩], 6⟩, 5) ∧
    at_most_one_per_pair
      (send_interest ⟨[1, 2], fun _ => none, [], 1⟩ 1 2 "t").interests :=
  ⟨C3_ordered_unique_amended.1
      ⟨[1, 2], fun _ => none, [⟨5, 1, 2, "pending", none⟩], 6⟩ 1 2
      ⟨5, 1, 2, "pending", none⟩ (by decide),
    C3_ordered_unique_amended.2.1
      ⟨[1, 2], fun _ => none, [], 1⟩ 1 2 "t" (by decide)⟩

/-- A store whose interests table holds rows in both directions for the
pair {1, 2}: an accepted 2→1 row with the smaller id and a pending 1→2
row.  Reachable when both sides' first requests race past each other's
existence check. -/
def mixedStore : Store :=
  { users := [1, 2]
    profiles := fun n =>
      if n = 1 then some fullProfile
      else if n = 2 then some fullProfile else none
    interests := [⟨1, 2, 1, "accepted", some "t"⟩, ⟨2, 1, 2, "pending", none⟩]
    next_interest_id := 3 }

/-- C6 counterexample: with two interest rows for one pair, the
dashboard (min-id, either direction) sees `accepted` and unlocks
messaging, while `can_message` (outgoing row first) sees `pending` and
denies: the two rules disagree on the same stored state. -/
theorem C6_gate_counterexample :
    (dashboard_entry mixedStore 1 fullProfile fullProfile 2).messaging_unlocked =
      true ∧
    (can_message mixedStore 1 2).allowed = false := by
  constructor
  · unfold dashboard_entry
    dsimp only
    rw [fullProfile_score]
    decide
  · rw [@can_message_some mixedStore 1 2 fullProfile fullProfile rfl rfl]
    dsimp only
    rw [fullProfile_score]
    decide

/-- C6 amended: the profile-view and dashboard `can_view` flags always
equal the messaging gate's score ≥ 90 test on the same profiles, and as
long as the store has at most one interest row per unordered pair — the
intended invariant — the dashboard's `messaging_unlocked` equals
`can_message`'s `allowed`. -/
theorem C6_gate_agreement_amended (db : Store) (me_id cand_id : ℤ)
    (me cand : Profile)
    (hme : db.profiles me_id = some me)
    (hcand : db.profiles cand_id = some cand)
    (huniq : at_most_one_per_pair db.interests) :
    (dashboard_entry db me_id me cand cand_id).can_view =
      decide ((can_message db me_id cand_id).score ≥ 90) ∧
    (view_profile_flags db me_id me cand cand_id).can_view =
      decide ((can_message db me_id cand_id).score ≥ 90) ∧
    (dashboard_entry db me_id me cand cand_id).messaging_unlocked =
      (can_message db me_id cand_id).allowed ∧
    (view_profile_flags db me_id me cand cand_id).messaging_unlocked =
      (can_message db me_id cand_id).allowed := by
  have hag := interest_status_agree huniq me_id cand_id
  rw [can_message_some hme hcand]
  unfold dashboard_entry view_profile_flags
  dsimp only
  refine ⟨rfl, rfl, ?_, ?_⟩
  · rw [hag]
  · rw [hag]

/-- C6 amended witness: on a store with a single accepted row for the
pair, the dashboard flag and the gate agree. -/
theorem C6_gate_agreement_amended_witness :
    (dashboard_entry
        ⟨[1, 2],
          fun n => if n = 1 then some fullProfile
            else if n = 2 then some fullProfile else none,
          [⟨1, 1, 2, "accepted", some "t"⟩], 2⟩ 1 fullProfile fullProfile
        2).messaging_unlocked =
      (can_message
        ⟨[1, 2],
          fun n => if n = 1 then some fullProfile
            else if n = 2 then some fullProfile else none,
          [⟨1, 1, 2, "accepted", some "t"⟩], 2⟩ 1 2).allowed :=
  (C6_gate_agreement_amended
    ⟨[1, 2],
      fun n => if n = 1 then some fullProfile
        else if n = 2 then some fullProfile else none,
      [⟨1, 1, 2, "accepted", some "t"⟩], 2⟩ 1 2 fullProfile fullProfile
    rfl rfl (by decide)).2.2.1
